import Mathlib

/-!
# Verification of the `spangle` routing engine

A shallow embedding of `spangle/_internal/router.py` (the trie-based request
router with typed path-parameter converters and trailing-slash strategies),
together with theorems settling the frozen claims about its specification.

Modelling conventions:
* Python `dict`s become insertion-ordered association lists (`Dict`).
* Python exceptions become `Except PyErr`; a converter that raises is a
  function returning `ConvOutcome.raise`.
* Handler classes are opaque identities (`Handler.user i`); the `Redirect`
  classes synthesized by the slash / no_slash strategies are modelled by the
  dedicated constructors `Handler.redirectSlash` / `Handler.redirectNoSlash`
  (always distinct from any caller-supplied handler, as in the source where
  each `Redirect` class object is freshly created).
* The `parse` third-party library (`compile` / `Parser.parse`) is not part of
  the repository sources; its behaviour is modelled from the spec's Pattern
  Compiler contract (spec section 4.2), keeping the two facts that the
  repository code itself fixes: a wrapped converter carries the regex
  fragment `getattr(f, "pattern", r"[^/]+")`, and conversion failures raised
  during `Parser.parse` propagate to the caller (the router catches them).
* Strings are modelled over their character lists; ASCII suffices for every
  route and request in the claims.
-/

set_option maxRecDepth 4096

namespace Spangle

/-- A converted path-parameter value. Python `float` objects are modelled by
their exact decimal reading (`vFloat mant exp` denotes `mant * 10 ^ exp`);
binary64 rounding is abstracted away (no claim inspects float values). -/
inductive Value where
  | vStr (s : String)
  | vInt (n : Int)
  | vFloat (mant : Int) (exp : Int)
  | vFloatInf (neg : Bool)
  | vFloatNan
deriving DecidableEq, Repr

/-- Result of calling a converter: a value, or a raised exception. -/
inductive ConvOutcome where
  | ok (v : Value)
  | raise
deriving Repr

/-- The Python exceptions that the router code can surface. -/
inductive PyErr where
  | unknownConverter (name : String)
  | convRaise
deriving DecidableEq, Repr

/-- Handlers are opaque identities; the router never inspects them
(spec section 6).  The two redirect constructors stand for the `Redirect`
classes synthesized inside `_append_slash` / `_append_no_slash`. -/
inductive Handler where
  | user (id : Nat)
  | redirectNoSlash
  | redirectSlash
deriving DecidableEq, Repr

/-- The validation pattern carried by a converter (its `pattern` attribute,
a regex fragment).  `noSlash` is `r"[^/]+"` (one nonempty slash-free run);
`anyNonempty` is the pattern-compiler default `r".+?"` under DOTALL (any
nonempty run, slashes included); `pred` abstracts an arbitrary user-supplied
regex fragment as its whole-string matching predicate. -/
inductive PatSpec where
  | noSlash
  | anyNonempty
  | pred (f : String → Bool)

/-- Whether a candidate capture as a whole matches the pattern. -/
def PatSpec.matches : PatSpec → String → Bool
  | .noSlash, s => decide (s ≠ "") && s.data.all (fun c => c ≠ '/')
  | .anyNonempty, s => decide (s ≠ "")
  | .pred f, s => f s

/-- A Python converter callable.  `prim tag parse pattern` is an ordinary
function object (with an optional `pattern` attribute); `wrapper f` is the
closure `_inner` produced by `_wrapper(f)` in the source. -/
inductive PyFun where
  | prim (tag : Nat) (parse : String → ConvOutcome) (pattern : Option PatSpec)
  | wrapper (inner : PyFun)

/-- Calling the converter (`_inner(x)` just calls `f(x)`). -/
def PyFun.call : PyFun → String → ConvOutcome
  | .prim _ f _, s => f s
  | .wrapper g, s => g.call s

/-- The `pattern` attribute: `_wrapper` sets
`_inner.pattern = getattr(f, "pattern", r"[^/]+")`. -/
def PyFun.patternAttr : PyFun → Option PatSpec
  | .prim _ _ p => p
  | .wrapper g => some (g.patternAttr.getD .noSlash)

/-- Insertion-ordered string-keyed dictionary, as a Python `dict`. -/
abbrev Dict (α : Type) : Type := List (String × α)

/-- `d.get(k)` (`None` on a missing key). -/
def dget {α : Type} (d : Dict α) (k : String) : Option α :=
  (d.find? (fun kv => kv.1 = k)).map (fun kv => kv.2)

/-- `d[k] = v`: update in place (keeping the key's position) or append. -/
def dset {α : Type} : Dict α → String → α → Dict α
  | [], k, v => [(k, v)]
  | kv :: rest, k, v =>
      if kv.1 = k then (k, v) :: rest else kv :: dset rest k v

/-- `d.setdefault(k, v)`: insert only if the key is absent. -/
def dsetdefault {α : Type} (d : Dict α) (k : String) (v : α) : Dict α :=
  match dget d k with
  | some _ => d
  | none => dset d k v

/-- `{**a, **b}`: entries of `a` updated pointwise by `b`, new keys of `b`
appended in order. -/
def dictMerge {α : Type} (a b : Dict α) : Dict α :=
  b.foldl (fun acc kv => dset acc kv.1 kv.2) a

/-- A parameter map (`parsed.named`, `Matched.params`). -/
abbrev Params : Type := Dict Value

/-- `_Matched`: a handler together with its captured parameters. -/
abbrev Matched : Type := Handler × Params

/-! ## Python number parsing

`int(s)` and `float(s)` on strings, restricted to ASCII input (every path in
the claims is ASCII): surrounding whitespace is stripped, a single leading
`+`/`-` sign is allowed, and single underscores may separate digits. -/

/-- ASCII whitespace stripped by Python's number constructors. -/
def isPyWS (c : Char) : Bool :=
  c = ' ' || c = '\t' || c = '\n' || c = '\r' || c = '\x0b' || c = '\x0c'

def stripWS (cs : List Char) : List Char :=
  ((cs.dropWhile isPyWS).reverse.dropWhile isPyWS).reverse

def digitVal (c : Char) : Nat := c.toNat - '0'.toNat

/-- Continue a digit run: further digits, with single underscores allowed
between digits.  Returns `none` on a malformed run (e.g. trailing `_`). -/
def pyDigitsTail (acc : Nat) : List Char → Option Nat
  | [] => some acc
  | '_' :: c :: cs =>
      if c.isDigit then pyDigitsTail (acc * 10 + digitVal c) cs else none
  | ['_'] => none
  | c :: cs =>
      if c.isDigit then pyDigitsTail (acc * 10 + digitVal c) cs else none

/-- A full unsigned digit string (must start with a digit). -/
def pyUnsigned : List Char → Option Nat
  | [] => none
  | c :: cs => if c.isDigit then pyDigitsTail (digitVal c) cs else none

/-- Python `int(s)` for an ASCII string: strip whitespace, optional single
sign, then digits with optional underscore grouping. -/
def pyIntParse (s : String) : Option Int :=
  match stripWS s.data with
  | '+' :: rest => (pyUnsigned rest).map (fun n => (n : Int))
  | '-' :: rest => (pyUnsigned rest).map (fun n => -(n : Int))
  | rest => (pyUnsigned rest).map (fun n => (n : Int))

/-- A maximal digit run with underscore grouping, starting at a digit:
returns `(value, digit count, remainder)`.  If the first character is not a
digit the run is empty. -/
def pyRunAux (acc cnt : Nat) : List Char → Nat × Nat × List Char
  | '_' :: c :: cs =>
      if c.isDigit then pyRunAux (acc * 10 + digitVal c) (cnt + 1) cs
      else (acc, cnt, '_' :: c :: cs)
  | c :: cs =>
      if c.isDigit then pyRunAux (acc * 10 + digitVal c) (cnt + 1) cs
      else (acc, cnt, c :: cs)
  | [] => (acc, cnt, [])

def pyRun (cs : List Char) : Nat × Nat × List Char :=
  match cs with
  | c :: _ => if c.isDigit then pyRunAux 0 0 cs else (0, 0, cs)
  | [] => (0, 0, [])

/-- Exponent suffix after `e`/`E`: optional sign, then a digit run; returns
the exponent and the remainder. -/
def pyExpTail (cs : List Char) : Option (Int × List Char) :=
  let (neg, body) :=
    match cs with
    | '+' :: r => (false, r)
    | '-' :: r => (true, r)
    | r => (false, r)
  let (v, cnt, rest) := pyRun body
  if cnt = 0 then none
  else some ((if neg then -(v : Int) else (v : Int)), rest)

/-- The numeric (non-inf/nan) body of a Python float literal:
`digits [. digits] [exp]` or `. digits [exp]`.  Returns the exact decimal
value as `(mantissa, decimal exponent)`. -/
def pyFloatNumeric (cs : List Char) : Option (Nat × Int) :=
  let (ip, ic, cs1) := pyRun cs
  let (mant, fc, hadDot, cs2) :=
    match cs1 with
    | '.' :: csa =>
        let (fp, fc, cs3) := pyRun csa
        (ip * 10 ^ fc + fp, fc, true, cs3)
    | _ => (ip, 0, false, cs1)
  if ic + fc = 0 then none
  else if ¬ hadDot ∧ ic = 0 then none
  else
    match cs2 with
    | [] => some (mant, -(fc : Int))
    | e :: csE =>
        if e = 'e' ∨ e = 'E' then
          match pyExpTail csE with
          | some (ex, []) => some (mant, ex - (fc : Int))
          | _ => none
        else none

def lowerEq (cs : List Char) (target : String) : Bool :=
  cs.map Char.toLower = target.data

/-- Python `float(s)` for an ASCII string (exact decimal reading; binary64
rounding abstracted, see `Value.vFloat`). -/
def pyFloatParse (s : String) : Option Value :=
  let cs := stripWS s.data
  let (neg, body) :=
    match cs with
    | '+' :: r => (false, r)
    | '-' :: r => (true, r)
    | r => (false, r)
  if lowerEq body "inf" || lowerEq body "infinity" then some (.vFloatInf neg)
  else if lowerEq body "nan" then some .vFloatNan
  else
    (pyFloatNumeric body).map (fun me =>
      .vFloat (if neg then -(me.1 : Int) else (me.1 : Int)) me.2)

/-! ## Converters (`_default_converter`, `_wrapper`, `_builtin_converters`) -/

/-- `_default_converter`: the identity (no `pattern` attribute). -/
def defaultConverterFun : PyFun := .prim 0 (fun s => .ok (.vStr s)) none

/-- Python's builtin `int` used as a converter: raises on parse failure. -/
def intFun : PyFun :=
  .prim 1
    (fun s =>
      match pyIntParse s with
      | some n => .ok (.vInt n)
      | none => .raise)
    none

/-- Python's builtin `float` used as a converter. -/
def floatFun : PyFun :=
  .prim 2
    (fun s =>
      match pyFloatParse s with
      | some v => .ok v
      | none => .raise)
    none

/-- Python's builtin `str`: the identity on strings. -/
def strFun : PyFun := .prim 3 (fun s => .ok (.vStr s)) none

/-- `_builtin_converters`: `int`/`float`/`str`/`default` wrapped by
`_wrapper` (hence all carrying the fallback pattern `[^/]+`, since the
underlying builtins have no `pattern` attribute), plus the unwrapped
`"*rest_string"` entry added afterwards. -/
def builtinConverters : Dict PyFun :=
  [("int", .wrapper intFun),
   ("float", .wrapper floatFun),
   ("str", .wrapper strFun),
   ("default", .wrapper defaultConverterFun),
   ("*rest_string", defaultConverterFun)]

/-! ## Pattern compiler

Modelled from the spec: the `parse` dependency (`compile`, `Parser.parse`) is
not part of the repository sources.  Per the spec (sections 4.1, 4.2, 7): a
template is literal text with `{name}` / `{name:converter}` fields; a field
whose converter name is absent from the converter map fails compilation at
registration time; a compiled pattern matches a candidate string as a whole,
literal characters matched exactly and each field's capture matched against
the converter's pattern, and on success each capture is fed through the
converter's parse function.  Conversion failures raised while parsing
propagate to the caller (the trie lookup in `router.py` catches them). -/

/-- One compiled template token: a literal character, or a named field with
its resolved converter (`none` for a bare `{name}` field, which captures the
raw string). -/
inductive PTok where
  | lit (c : Char)
  | fld (name : String) (conv : Option PyFun)

/-- A compiled pattern (`parse.Parser`). -/
structure Parser where
  toks : List PTok

/-- A lexed template token before converter resolution: a literal character
or the raw contents of a `{...}` field. -/
inductive RawTok where
  | lit (c : Char)
  | field (inside : List Char)

/-- Split field contents at the first `:` into name and converter name. -/
def splitColon : List Char → List Char × Option (List Char)
  | [] => ([], none)
  | ':' :: rest => ([], some rest)
  | c :: rest =>
      let (a, b) := splitColon rest
      (c :: a, b)

/-- One-pass template lexer.  The state holds the reversed buffer of the
field currently being read (`none` outside a field); fields run to the first
`}` and do not nest; a `{` with no closing `}` is kept as literal text. -/
def scanToks : Option (List Char) → List Char → List RawTok
  | none, [] => []
  | none, '{' :: cs => scanToks (some []) cs
  | none, c :: cs => .lit c :: scanToks none cs
  | some buf, [] => .lit '{' :: buf.reverse.map .lit
  | some buf, '}' :: cs => .field buf.reverse :: scanToks none cs
  | some buf, c :: cs => scanToks (some (c :: buf)) cs

/-- Resolve one lexed token against the converter map: a field's converter
name must be present (spec sections 4.1 and 7: `UnknownConverterError`). -/
def resolveTok (conv : Dict PyFun) : RawTok → Except PyErr PTok
  | .lit c => .ok (.lit c)
  | .field inside =>
      let (nm, convName) := splitColon inside
      match convName with
      | none => .ok (.fld (String.mk nm) none)
      | some cn =>
          match dget conv (String.mk cn) with
          | none => .error (.unknownConverter (String.mk cn))
          | some f => .ok (.fld (String.mk nm) (some f))

/-- `parse.compile(template, converters)`. -/
def compile (conv : Dict PyFun) (template : String) : Except PyErr Parser :=
  ((scanToks none template.data).mapM (resolveTok conv)).map Parser.mk

/-- The pattern the compiler uses for a field: the converter's `pattern`
attribute, defaulting to `.+?` (any nonempty run) for a patternless
converter or a bare field. -/
def effPattern : Option PyFun → PatSpec
  | none => .anyNonempty
  | some g => g.patternAttr.getD .anyNonempty

/-- All splits of a character list into prefix and suffix, shortest prefix
first (the regex engine's lazy capture order). -/
def splitsOf : List Char → List (List Char × List Char)
  | [] => [([], [])]
  | c :: cs =>
      ([], c :: cs) :: (splitsOf cs).map (fun pr => (c :: pr.1, pr.2))

/-- The capture list of one successful split: each field's name, converter
and captured substring, in template order. -/
abbrev Caps : Type := List (String × Option PyFun × String)

/-- Match tokens against the whole candidate: literals exactly, each field
capture satisfying its pattern, shortest captures first.  Returns the
captures of the first (laziest) successful split, before conversion. -/
def findSplit : List PTok → List Char → Option Caps
  | [], [] => some []
  | [], _ :: _ => none
  | .lit _ :: _, [] => none
  | .lit c :: ts, d :: ds => if d = c then findSplit ts ds else none
  | .fld n f :: ts, cs =>
      (splitsOf cs).findSome? (fun pr =>
        if (effPattern f).matches (String.mk pr.1) then
          (findSplit ts pr.2).map (fun caps => (n, f, String.mk pr.1) :: caps)
        else none)

/-- Apply the converters to the captures, in template order; a converter
that raises aborts the whole parse with the exception. -/
def convertCaps : Caps → Except PyErr (List (String × Value))
  | [] => .ok []
  | (n, f, cap) :: rest => do
      let v ←
        match f with
        | none => Except.ok (Value.vStr cap)
        | some g =>
            match g.call cap with
            | .raise => Except.error PyErr.convRaise
            | .ok v => Except.ok v
      let tl ← convertCaps rest
      .ok ((n, v) :: tl)

/-- `parsed.named`: the named captures as a dict (unnamed fields omitted). -/
def namedOf (l : List (String × Value)) : Params :=
  l.foldl (fun acc kv => if kv.1 = "" then acc else dset acc kv.1 kv.2) []

/-- `Parser.parse(candidate)`: `none` when the pattern does not match; the
named converted captures on success; a raised exception when a converter
fails on a matched capture. -/
def parserParse (p : Parser) (s : String) : Except PyErr (Option Params) :=
  match findSplit p.toks s.data with
  | none => .ok none
  | some caps => (convertCaps caps).map (fun l => some (namedOf l))

/-! ## Template classification and path utilities

The source classifies segments with `re.match` (lines 144, 147, 393 of
`router.py`) and rewrites bare fields with
`re.sub(r"{([^:]+)}", r"{\1:default}", ...)` (lines 171, 185). -/

/-- Scan up to the first `:`; fails if none exists or a `/` occurs first
(the name class of the classification regexes is `[^/:]+`). -/
def spanUntilColon : List Char → Option (List Char × List Char)
  | [] => none
  | ':' :: rest => some ([], rest)
  | '/' :: _ => none
  | c :: rest => (spanUntilColon rest).map (fun pr => (c :: pr.1, pr.2))

/-- Scan up to the first `}`; fails if none exists or a `/` or `:` occurs
first. -/
def spanUntilRBrace : List Char → Option (List Char × List Char)
  | [] => none
  | '}' :: rest => some ([], rest)
  | ':' :: _ => none
  | '/' :: _ => none
  | c :: rest => (spanUntilRBrace rest).map (fun pr => (c :: pr.1, pr.2))

/-- Does `{name:*conv}` (rest placeholder) start right after a `{` here?
(`re.match(r".*{([^/:]+):\*[^/:]+}.*", head)`, `router.py` line 144.) -/
def restAt (cs : List Char) : Bool :=
  match spanUntilColon cs with
  | none => false
  | some (nm, afterColon) =>
      decide (nm ≠ []) &&
      match afterColon with
      | '*' :: cs2 =>
          match spanUntilRBrace cs2 with
          | none => false
          | some (cv, _) => decide (cv ≠ [])
      | _ => false

/-- Does `{name}` or `{name:conv}` (dynamic placeholder) start right after a
`{` here?  (`re.match(r".*{([^/:]+)(:[^/:]+)?}.*", path)`, `router.py`
lines 147 and 393.) -/
def dynAt (cs : List Char) : Bool :=
  let nm := cs.takeWhile (fun c => c ≠ '/' && c ≠ ':' && c ≠ '}')
  let rest := cs.drop nm.length
  decide (nm ≠ []) &&
  match rest with
  | '}' :: _ => true
  | ':' :: cs2 =>
      let cv := cs2.takeWhile (fun c => c ≠ '/' && c ≠ ':' && c ≠ '}')
      decide (cv ≠ []) &&
      match cs2.drop cv.length with
      | '}' :: _ => true
      | _ => false
  | _ => false

def hasRestMarkerAux : List Char → Bool
  | [] => false
  | '{' :: cs => restAt cs || hasRestMarkerAux cs
  | _ :: cs => hasRestMarkerAux cs

def hasDynMarkerAux : List Char → Bool
  | [] => false
  | '{' :: cs => dynAt cs || hasDynMarkerAux cs
  | _ :: cs => hasDynMarkerAux cs

/-- The rest-segment test on a path head. -/
def isRestHead (s : String) : Bool := hasRestMarkerAux s.data

/-- The dynamic-placeholder test, on a path head or a whole template. -/
def isDynHead (s : String) : Bool := hasDynMarkerAux s.data

/-- Index of the last `}` in a list of characters. -/
def lastRBraceIdx (cs : List Char) : Option Nat :=
  (cs.enum.filter (fun ci => ci.2 = '}')).getLast?.map (fun ci => ci.1)

/-- Try to complete a `{([^:]+)}` match starting right after a `{`: the
greedy name is the longest colon-free run that ends just before a `}`.
Returns the name and the number of characters consumed (`}` included). -/
def fixAfterBrace (cs : List Char) : Option (List Char × Nat) :=
  let q := cs.takeWhile (fun c => c ≠ ':')
  match lastRBraceIdx q with
  | some k => if 1 ≤ k then some (q.take k, k + 1) else none
  | none => none

/-- `re.sub(r"{([^:]+)}", r"{\1:default}", s)`: qualify each bare `{name}`
field with the `default` converter (leftmost, non-overlapping, greedy).
The `fuel` argument only drives the recursion; every step consumes at least
one character, so an initial fuel of the string length is always enough. -/
def fixTemplateAux : Nat → List Char → List Char
  | 0, cs => cs
  | _ + 1, [] => []
  | fuel + 1, '{' :: cs =>
      match fixAfterBrace cs with
      | some (nm, k) =>
          '{' :: (nm ++ ":default\x7d".data) ++ fixTemplateAux fuel (cs.drop k)
      | none => '{' :: fixTemplateAux fuel cs
  | fuel + 1, c :: cs => c :: fixTemplateAux fuel cs

def fixTemplate (s : String) : String :=
  String.mk (fixTemplateAux s.data.length s.data)

def joinPathAux : List String → List Char
  | [] => []
  | [s] => s.data
  | s :: rest => s.data ++ '/' :: joinPathAux rest

/-- `"/".join([head, *rest])`. -/
def joinPath (head : String) (rest : List String) : String :=
  String.mk (joinPathAux (head :: rest))

def splitSlashAux (buf : List Char) : List Char → List String
  | [] => [String.mk buf.reverse]
  | c :: cs =>
      if c = '/' then String.mk buf.reverse :: splitSlashAux [] cs
      else splitSlashAux (c :: buf) cs

/-- Python `path.split("/")` (separators kept as empty strings). -/
def pySplitSlash (s : String) : List String := splitSlashAux [] s.data

/-- `_, *next_path_parts = path.split("/")`. -/
def splitTail (path : String) : List String :=
  (pySplitSlash path).tail

/-- `path.startswith("/")`. -/
def startsSlash (s : String) : Bool :=
  match s.data with
  | '/' :: _ => true
  | _ => false

/-- `path.endswith("/")`. -/
def endsSlash (s : String) : Bool :=
  match s.data.reverse with
  | '/' :: _ => true
  | _ => false

/-- `normalize_path` from `_internal/utils.py`: ensure a leading and a
trailing slash. -/
def normalizePath (path : String) : String :=
  let p := if startsSlash path then path else "/" ++ path
  if endsSlash p then p else p ++ "/"

/-- `path[:-1]`. -/
def pyDropLast (s : String) : String := String.mk s.data.dropLast

/-- `path[:-1] or "/"` (Python: the empty string is falsy). -/
def dropLastOrRoot (path : String) : String :=
  let t := pyDropLast path
  if t = "" then "/" else t

/-! ## The trie matcher (`_Node`) -/

/-- A trie node: static children keyed by exact segment, dynamic children
and rest children keyed by their normalized template string (each holding a
compiled pattern and a child node, in insertion order), and an optional
terminal handler. -/
inductive Node where
  | mk (statics : List (String × Node))
       (dynamics : List (String × Parser × Node))
       (rests : List (String × Parser × Node))
       (handler : Option Handler)

def Node.statics : Node → List (String × Node)
  | .mk st _ _ _ => st

def Node.dynamics : Node → List (String × Parser × Node)
  | .mk _ dy _ _ => dy

def Node.rests : Node → List (String × Parser × Node)
  | .mk _ _ rs _ => rs

def Node.handler : Node → Option Handler
  | .mk _ _ _ h => h

def emptyNode : Node := .mk [] [] [] none

/-- `_Node.get` on an empty segment list: succeed iff the node has a
handler (factored out because `_get_from_rest_node` calls
`next_node.get([], ...)`). -/
def nodeGetNil (n : Node) (params : Params) : Except PyErr (Option Matched) :=
  match n.handler with
  | none => .ok none
  | some h => .ok (some (h, params))

/-- Python's `a or b` over lookup results: `None` is falsy, a `_Matched`
is truthy, and a raised exception propagates. -/
def exceptOrElse (a : Except PyErr (Option Matched))
    (b : Unit → Except PyErr (Option Matched)) : Except PyErr (Option Matched) :=
  match a with
  | .error e => .error e
  | .ok (some m) => .ok (some m)
  | .ok none => b ()

/-- The shared shape of `_get_from_dynamic_node` / `_get_from_rest_node`:
walk the alternatives in insertion order and return the first truthy
result; a falsy result moves on; an exception from the body propagates. -/
def firstHitE {α : Type} (f : α → Except PyErr (Option Matched)) :
    List α → Except PyErr (Option Matched)
  | [] => .ok none
  | x :: xs =>
      match f x with
      | .error e => .error e
      | .ok (some m) => .ok (some m)
      | .ok none => firstHitE f xs

/-- `_Node.get`: try the exact static child, then each dynamic child in
insertion order (the pattern applied to the head segment alone; a parse
exception is caught and treated as non-match, per the
`try/except Exception: continue` in the source), then each rest child (the
pattern applied to the whole rejoined remaining path). -/
def nodeGet : Node → List String → Params → Except PyErr (Option Matched)
  | node, [], params => nodeGetNil node params
  | .mk st dy rs _, head :: rest, params =>
      exceptOrElse
        (match dget st head with
          | none => .ok none
          | some child => nodeGet child rest params)
        (fun _ =>
          exceptOrElse
            (firstHitE (fun e =>
              match parserParse e.2.1 head with
              | .error _ => .ok none
              | .ok none => .ok none
              | .ok (some np) => nodeGet e.2.2 rest (dictMerge params np)) dy)
            (fun _ =>
              firstHitE (fun e =>
                match parserParse e.2.1 (joinPath head rest) with
                | .error _ => .ok none
                | .ok none => .ok none
                | .ok (some np) => nodeGetNil e.2.2 (dictMerge params np)) rs))

/-- `_Node.append` on an empty segment list: set the terminal handler
(overwriting silently).  Factored out because `_append_rest_node` calls
`child.append([], handler, converters)`. -/
def nodeAppendNil (n : Node) (h : Handler) : Node :=
  match n with
  | .mk st dy rs _ => .mk st dy rs (some h)

/-- `_Node.append`: classify the head segment (rest placeholder first, then
dynamic placeholder, else static) and insert.  Dynamic and rest children
are keyed by their `{name}` → `{name:default}`-normalized template; the
pattern is compiled (which may fail on an unknown converter name) only when
the key is new. -/
def nodeAppend : Node → List String → Handler → Dict PyFun → Except PyErr Node
  | node, [], h, _ => .ok (nodeAppendNil node h)
  | .mk st dy rs hd, head :: rest, h, conv =>
      if isRestHead head then
        let fixedPath := fixTemplate (joinPath head rest)
        match dget rs fixedPath with
        | some pc =>
            .ok (.mk st dy (dset rs fixedPath (pc.1, nodeAppendNil pc.2 h)) hd)
        | none => do
            let p ← compile conv fixedPath
            .ok (.mk st dy (dset rs fixedPath (p, nodeAppendNil emptyNode h)) hd)
      else if isDynHead head then
        let fixedHead := fixTemplate head
        match dget dy fixedHead with
        | some pc => do
            let c ← nodeAppend pc.2 rest h conv
            .ok (.mk st (dset dy fixedHead (pc.1, c)) rs hd)
        | none => do
            let p ← compile conv fixedHead
            let c ← nodeAppend emptyNode rest h conv
            .ok (.mk st (dset dy fixedHead (p, c)) rs hd)
      else
        match dget st head with
        | some child => do
            let c ← nodeAppend child rest h conv
            .ok (.mk (dset st head c) dy rs hd)
        | none => do
            let c ← nodeAppend emptyNode rest h conv
            .ok (.mk (dset st head c) dy rs hd)

/-! ## Trailing-slash strategies and the two sub-routers -/

/-- The four trailing-slash strategies (`RoutingStrategy`). -/
inductive Strategy where
  | strict
  | clone
  | slash
  | noSlash
deriving DecidableEq, Repr

/-- `_StaticRouter`: a flat table from full literal path to handler. -/
structure StaticRouter where
  routes : Dict Handler
deriving Repr

/-- `_StaticRouter.append` under the four strategies; returns the updated
table and the canonical path. -/
def staticAppend (r : StaticRouter) (path : String) (h : Handler) :
    Strategy → StaticRouter × String
  | .strict =>
      let p := if startsSlash path then path else "/" ++ path
      (⟨dset r.routes p h⟩, p)
  | .clone =>
      let slashPath := normalizePath path
      let noTrailing := dropLastOrRoot slashPath
      if endsSlash path then
        (⟨dsetdefault (dset r.routes slashPath h) noTrailing h⟩, slashPath)
      else
        (⟨dsetdefault (dset r.routes noTrailing h) slashPath h⟩, noTrailing)
  | .noSlash =>
      let slashPath := normalizePath path
      let noTrailing := dropLastOrRoot slashPath
      (⟨dsetdefault (dset r.routes noTrailing h) slashPath .redirectNoSlash⟩,
        noTrailing)
  | .slash =>
      let slashPath := normalizePath path
      let noTrailing := dropLastOrRoot slashPath
      (⟨dsetdefault (dset r.routes slashPath h) noTrailing .redirectSlash⟩,
        slashPath)

/-- `_StaticRouter.get`: exact table lookup, empty parameters. -/
def staticGet (r : StaticRouter) (path : String) : Option Matched :=
  (dget r.routes path).map (fun h => (h, ([] : Params)))

/-- `_DynamicRouter.get`: drop the part before the first `/` and walk the
trie from the root. -/
def dynGet (root : Node) (path : String) : Except PyErr (Option Matched) :=
  nodeGet root (splitTail path) []

/-- `_DynamicRouter._append_*`: the four strategies over the trie; returns
the updated root node and the canonical path.  The slash / no_slash / clone
variants consult `self.get` on the alias path (on the already-updated trie)
and only register the alias when that lookup is falsy. -/
def dynAppend (root : Node) (path : String) (h : Handler) (conv : Dict PyFun) :
    Strategy → Except PyErr (Node × String)
  | .strict => do
      let p := if startsSlash path then path else "/" ++ path
      let n ← nodeAppend root (splitTail p) h conv
      .ok (n, p)
  | .clone => do
      let slashPath := normalizePath path
      let noTrailing := dropLastOrRoot slashPath
      let (originalPath, modifiedPath) :=
        if endsSlash path then (slashPath, noTrailing)
        else (noTrailing, slashPath)
      let n1 ← nodeAppend root (splitTail originalPath) h conv
      let g ← dynGet n1 modifiedPath
      match g with
      | some _ => .ok (n1, originalPath)
      | none => do
          let n2 ← nodeAppend n1 (splitTail modifiedPath) h conv
          .ok (n2, originalPath)
  | .slash => do
      let slashPath := normalizePath path
      let noTrailing := dropLastOrRoot slashPath
      let n1 ← nodeAppend root (splitTail slashPath) h conv
      let g ← dynGet n1 noTrailing
      match g with
      | some _ => .ok (n1, slashPath)
      | none => do
          let n2 ← nodeAppend n1 (splitTail noTrailing) .redirectSlash conv
          .ok (n2, slashPath)
  | .noSlash => do
      let slashPath := normalizePath path
      let noTrailing := dropLastOrRoot slashPath
      let n1 ← nodeAppend root (splitTail noTrailing) h conv
      let g ← dynGet n1 slashPath
      match g with
      | some _ => .ok (n1, noTrailing)
      | none => do
          let n2 ← nodeAppend n1 (splitTail slashPath) .redirectNoSlash conv
          .ok (n2, noTrailing)

/-! ## The router facade -/

/-- `Router`: the static table, the trie root, and the default strategy. -/
structure Router where
  defaultStrategy : Strategy
  staticRouter : StaticRouter
  rootNode : Node

def freshRouter (s : Strategy) : Router := ⟨s, ⟨[]⟩, emptyNode⟩

/-- What `Router.append` gives back to its caller: the appended router and
canonical path (or the registration-time exception), together with the
caller's converters dict as it stands after the call (`_DynamicRouter.append`
rewrites the caller's dict in place before merging with the built-ins). -/
structure AppendOut where
  result : Except PyErr (Router × String)
  convertersAfter : Dict PyFun

/-- `Router.append`: dispatch on whether the template has a placeholder;
dynamic templates first wrap every caller-supplied converter in place with
`_wrapper` and merge the result over the built-ins. -/
def routerAppend (r : Router) (path : String) (h : Handler)
    (conv : Dict PyFun) (strat : Option Strategy) : AppendOut :=
  let strategy := strat.getD r.defaultStrategy
  if isDynHead path then
    let wrapped := conv.map (fun kv => (kv.1, PyFun.wrapper kv.2))
    let merged := dictMerge builtinConverters wrapped
    { result :=
        (dynAppend r.rootNode path h merged strategy).map
          (fun np => ({ r with rootNode := np.1 }, np.2)),
      convertersAfter := wrapped }
  else
    let (sr, p) := staticAppend r.staticRouter path h strategy
    { result := .ok ({ r with staticRouter := sr }, p),
      convertersAfter := conv }

/-- `Router.get`: the static table first, then the trie. -/
def routerGet (r : Router) (path : String) : Except PyErr (Option Matched) :=
  match staticGet r.staticRouter path with
  | some m => .ok (some m)
  | none => dynGet r.rootNode path

/-- Build a router by a sequence of `append` calls (a failing registration
aborts the build, as the exception would propagate at startup). -/
def buildRouter (s : Strategy)
    (regs : List (String × Handler × Dict PyFun × Option Strategy)) :
    Except PyErr Router :=
  regs.foldlM
    (fun r reg => do
      let out := routerAppend r reg.1 reg.2.1 reg.2.2.1 reg.2.2.2
      let rp ← out.result
      .ok rp.1)
    (freshRouter s)

/-- The behaviour of the synthesized `Redirect` handlers: the no_slash
variant answers 308 Permanent Redirect to `request_path[:-1] or "/"`, the
slash variant to `request_path + "/"`; user handlers are not redirects. -/
def redirectTarget : Handler → String → Option (String × Nat)
  | .redirectNoSlash, p => some (dropLastOrRoot p, 308)
  | .redirectSlash, p => some (p ++ "/", 308)
  | .user _, _ => none

/-! ## State-threaded lookup

Python objects are heap references, so a method call on a child node could
in principle mutate it.  `nodeGetS` renders `_Node.get` with explicit state
threading: every sub-lookup returns the (possibly updated) child alongside
its result, and the parent writes that child back into its table.  Proving
`nodeGetS` returns its input node unchanged formalizes that lookup is
read-only. -/

/-- State-threaded variant of `nodeGetNil`. -/
def nodeGetNilS (n : Node) (params : Params) :
    Except PyErr (Option Matched) × Node :=
  (nodeGetNil n params, n)

/-- State-threaded variant of `firstHitE`: each visited alternative is
written back in place; unvisited alternatives are untouched. -/
def firstHitS {α : Type} (f : α → Except PyErr (Option Matched) × α) :
    List α → Except PyErr (Option Matched) × List α
  | [] => (.ok none, [])
  | x :: xs =>
      match f x with
      | (.error e, x') => (.error e, x' :: xs)
      | (.ok (some m), x') => (.ok (some m), x' :: xs)
      | (.ok none, x') =>
          let (r, xs') := firstHitS f xs
          (r, x' :: xs')

/-- State-threaded variant of `nodeGet`. -/
def nodeGetS : Node → List String → Params → Except PyErr (Option Matched) × Node
  | node, [], params => (nodeGetNil node params, node)
  | .mk st dy rs hd, head :: rest, params =>
      let (r1, st') :=
        match dget st head with
        | none => (Except.ok none, st)
        | some child =>
            let (res, child') := nodeGetS child rest params
            (res, dset st head child')
      match r1 with
      | .error e => (.error e, .mk st' dy rs hd)
      | .ok (some m) => (.ok (some m), .mk st' dy rs hd)
      | .ok none =>
          let (r2, dy') :=
            firstHitS (fun e =>
              match parserParse e.2.1 head with
              | .error _ => (Except.ok none, e)
              | .ok none => (Except.ok none, e)
              | .ok (some np) =>
                  let (res, child') := nodeGetS e.2.2 rest (dictMerge params np)
                  (res, (e.1, e.2.1, child'))) dy
          match r2 with
          | .error e => (.error e, .mk st' dy' rs hd)
          | .ok (some m) => (.ok (some m), .mk st' dy' rs hd)
          | .ok none =>
              let (r3, rs') :=
                firstHitS (fun e =>
                  match parserParse e.2.1 (joinPath head rest) with
                  | .error _ => (Except.ok none, e)
                  | .ok none => (Except.ok none, e)
                  | .ok (some np) =>
                      let (res, child') :=
                        nodeGetNilS e.2.2 (dictMerge params np)
                      (res, (e.1, e.2.1, child'))) rs
              (r3, .mk st' dy' rs' hd)

/-- State-threaded variant of `Router.get`. -/
def routerGetS (r : Router) (path : String) :
    Except PyErr (Option Matched) × Router :=
  match staticGet r.staticRouter path with
  | some m => (.ok (some m), r)
  | none =>
      let (res, n') := nodeGetS r.rootNode (splitTail path) []
      (res, { r with rootNode := n' })

/-! ## Lookup totality -/

theorem nodeGetNil_ok (n : Node) (params : Params) :
    ∃ r, nodeGetNil n params = .ok r := by
  cases hh : n.handler with
  | none => exact ⟨none, by simp [nodeGetNil, hh]⟩
  | some h => exact ⟨some (h, params), by simp [nodeGetNil, hh]⟩

theorem exceptOrElse_ok {a : Except PyErr (Option Matched)}
    {b : Unit → Except PyErr (Option Matched)}
    (ha : ∃ r, a = .ok r) (hb : ∃ r, b () = .ok r) :
    ∃ r, exceptOrElse a b = .ok r := by
  obtain ⟨ra, ha⟩ := ha
  subst ha
  cases ra with
  | none => simpa [exceptOrElse] using hb
  | some m => exact ⟨some m, rfl⟩

theorem firstHitE_ok {α : Type} {f : α → Except PyErr (Option Matched)} :
    ∀ {l : List α}, (∀ x ∈ l, ∃ r, f x = .ok r) →
      ∃ r, firstHitE f l = .ok r
  | [], _ => ⟨none, rfl⟩
  | x :: xs, h => by
      obtain ⟨rx, hx⟩ := h x (List.mem_cons_self x xs)
      cases rx with
      | some m => exact ⟨some m, by simp [firstHitE, hx]⟩
      | none =>
          obtain ⟨r, hr⟩ :=
            firstHitE_ok (fun y hy => h y (List.mem_cons_of_mem x hy))
          exact ⟨r, by simp [firstHitE, hx, hr]⟩

/-- Lookup never lets an exception escape: a converter that raises during
matching is caught (`try/except Exception: continue`) at the node where it
fired. -/
theorem nodeGet_ok : ∀ (parts : List String) (node : Node) (params : Params),
    ∃ r, nodeGet node parts params = .ok r
  | [], node, params => by
      simpa [nodeGet] using nodeGetNil_ok node params
  | head :: rest, .mk st dy rs hd, params => by
      simp only [nodeGet]
      apply exceptOrElse_ok
      · cases hdg : dget st head with
        | none => exact ⟨none, rfl⟩
        | some child => exact nodeGet_ok rest child params
      · apply exceptOrElse_ok
        · apply firstHitE_ok
          intro e _
          cases hp : parserParse e.2.1 head with
          | error er => exact ⟨none, rfl⟩
          | ok op =>
              cases op with
              | none => exact ⟨none, rfl⟩
              | some np => exact nodeGet_ok rest e.2.2 (dictMerge params np)
        · apply firstHitE_ok
          intro e _
          cases hp : parserParse e.2.1 (joinPath head rest) with
          | error er => exact ⟨none, rfl⟩
          | ok op =>
              cases op with
              | none => exact ⟨none, rfl⟩
              | some np => exact nodeGetNil_ok e.2.2 (dictMerge params np)

theorem routerGet_ok (r : Router) (path : String) :
    ∃ res, routerGet r path = .ok res := by
  unfold routerGet
  cases hs : staticGet r.staticRouter path with
  | some m => exact ⟨some m, rfl⟩
  | none => simpa [dynGet] using nodeGet_ok (splitTail path) r.rootNode []

/-! ## Lookup is read-only -/

theorem dset_of_dget {α : Type} :
    ∀ (d : Dict α) (k : String) (v : α), dget d k = some v → dset d k v = d
  | [], k, v, h => by simp [dget] at h
  | (k', v') :: rest, k, v, h => by
      by_cases hk : k' = k
      · subst hk
        simp [dget, List.find?] at h
        simp [dset, h]
      · simp [dget, List.find?, hk] at h
        simpa [dset, hk] using dset_of_dget rest k v (by simpa [dget] using h)

theorem firstHitS_eq {α : Type} {f : α → Except PyErr (Option Matched) × α}
    {g : α → Except PyErr (Option Matched)} (hfg : ∀ x, f x = (g x, x)) :
    ∀ l : List α, firstHitS f l = (firstHitE g l, l)
  | [] => rfl
  | x :: xs => by
      have hx := hfg x
      cases hgx : g x with
      | error e => simp [firstHitS, firstHitE, hx, hgx]
      | ok o =>
          cases o with
          | some m => simp [firstHitS, firstHitE, hx, hgx]
          | none => simp [firstHitS, firstHitE, hx, hgx, firstHitS_eq hfg xs]

theorem matchPair (x b : Except PyErr (Option Matched)) (n : Node) :
    (match x with
      | Except.error e => (Except.error e, n)
      | Except.ok (some m) => (Except.ok (some m), n)
      | Except.ok none => (b, n)) =
    ((match x with
      | Except.error e => Except.error e
      | Except.ok (some m) => Except.ok (some m)
      | Except.ok none => b), n) := by
  cases x with
  | error e => rfl
  | ok o => cases o <;> rfl

/-- The state-threaded lookup returns its input node unchanged, with the
same result as the plain lookup. -/
theorem nodeGetS_eq : ∀ (parts : List String) (node : Node) (params : Params),
    nodeGetS node parts params = (nodeGet node parts params, node)
  | [], node, params => by simp [nodeGetS, nodeGet]
  | head :: rest, .mk st dy rs hd, params => by
      simp only [nodeGetS, nodeGet]
      have hdy : ∀ e : String × Parser × Node,
          (match parserParse e.2.1 head with
            | .error _ => (Except.ok none, e)
            | .ok none => (Except.ok none, e)
            | .ok (some np) =>
                let (res, child') := nodeGetS e.2.2 rest (dictMerge params np)
                (res, (e.1, e.2.1, child'))) =
          ((match parserParse e.2.1 head with
            | .error _ => Except.ok none
            | .ok none => Except.ok none
            | .ok (some np) => nodeGet e.2.2 rest (dictMerge params np)), e) := by
        intro e
        cases hp : parserParse e.2.1 head with
        | error er => rfl
        | ok op =>
            cases op with
            | none => rfl
            | some np => simp [nodeGetS_eq rest e.2.2 (dictMerge params np)]
      have hrs : ∀ e : String × Parser × Node,
          (match parserParse e.2.1 (joinPath head rest) with
            | .error _ => (Except.ok none, e)
            | .ok none => (Except.ok none, e)
            | .ok (some np) =>
                let (res, child') := nodeGetNilS e.2.2 (dictMerge params np)
                (res, (e.1, e.2.1, child'))) =
          ((match parserParse e.2.1 (joinPath head rest) with
            | .error _ => Except.ok none
            | .ok none => Except.ok none
            | .ok (some np) => nodeGetNil e.2.2 (dictMerge params np)), e) := by
        intro e
        cases hp : parserParse e.2.1 (joinPath head rest) with
        | error er => rfl
        | ok op =>
            cases op with
            | none => rfl
            | some np => simp [nodeGetNilS]
      cases hdg : dget st head with
      | none =>
          simp only [hdg, firstHitS_eq hdy, firstHitS_eq hrs, exceptOrElse]
          exact matchPair _ _ _
      | some child =>
          have hchild := nodeGetS_eq rest child params
          have hds : dset st head child = st := dset_of_dget st head child hdg
          simp only [hdg, hchild, hds, firstHitS_eq hdy, firstHitS_eq hrs,
            exceptOrElse]
          cases nodeGet child rest params with
          | error e => rfl
          | ok o =>
              cases o with
              | some m => rfl
              | none => exact matchPair _ _ _

theorem routerGetS_eq (r : Router) (path : String) :
    routerGetS r path = (routerGet r path, r) := by
  unfold routerGetS routerGet
  cases hs : staticGet r.staticRouter path with
  | some m => rfl
  | none => simp [dynGet, nodeGetS_eq]

/-! ## Claim scenarios and theorems -/

/-- Extract the router from an `append` (fall back to a fresh router; never
taken in the scenarios below). -/
def routerOf (out : AppendOut) (fallback : Router) : Router :=
  match out.result with
  | .ok rp => rp.1
  | .error _ => fallback

/-- C1 scenario: `/{a:int}/x` then `/{b:str}/y`, strict, no custom
converters. -/
def c1Router : Router :=
  routerOf
    (routerAppend
      (routerOf (routerAppend (freshRouter .strict) "/{a:int}/x" (.user 1) [] none)
        (freshRouter .strict))
      "/{b:str}/y" (.user 2) [] none)
    (freshRouter .strict)

/-- C1: with `/{a:int}/x` and `/{b:str}/y` registered in that order (strict
strategy, empty custom converters), `get("/5/y")` returns the second route's
handler with `{b: "5"}`, even though the first sibling's pattern also
matches the head segment `5` (second conjunct): a dynamic child whose
subtree fails on the tail does not short-circuit the sibling search. -/
theorem claim1_backtracking_across_dynamic_siblings :
    routerGet c1Router "/5/y" =
      .ok (some (.user 2, [("b", .vStr "5")])) ∧
    c1Router.rootNode.dynamics.map (fun e => parserParse e.2.1 "5") =
      [.ok (some [("a", .vInt 5)]), .ok (some [("b", .vStr "5")])] :=
  ⟨rfl, rfl⟩

/-- C2 scenario: literal `/foo` registered under `no_slash` on a fresh
router. -/
def c2Router (i : Nat) : Router :=
  routerOf (routerAppend (freshRouter .noSlash) "/foo" (.user i) [] (some .noSlash))
    (freshRouter .noSlash)

/-- C2: under the default `no_slash` strategy, `get("/foo")` returns the
real handler with empty parameters, `get("/foo/")` returns the synthesized
redirect handler, which differs from every user handler and answers a 308
Permanent Redirect to the request path with its trailing slash stripped. -/
theorem claim2_no_slash_strategy (i : Nat) :
    routerGet (c2Router i) "/foo" = .ok (some (.user i, [])) ∧
    routerGet (c2Router i) "/foo/" = .ok (some (.redirectNoSlash, [])) ∧
    Handler.redirectNoSlash ≠ .user i ∧
    redirectTarget .redirectNoSlash "/foo/" = some ("/foo", 308) :=
  ⟨rfl, rfl, fun h => Handler.noConfusion h, rfl⟩

/-- C3 scenario: `/a/{rest:*rest_string}`, strict, no custom converters. -/
def c3Router : Router :=
  routerOf
    (routerAppend (freshRouter .strict) "/a/{rest:*rest_string}" (.user 3) [] none)
    (freshRouter .strict)

/-- C3: the rest placeholder consumes the entire remaining path, embedded
slashes kept verbatim: `get("/a/x/y/z")` captures `rest = "x/y/z"`. -/
theorem claim3_rest_segment_greediness :
    routerGet c3Router "/a/x/y/z" =
      .ok (some (.user 3, [("rest", .vStr "x/y/z")])) :=
  rfl

/-- C6 scenario: literal `/foo` registered under `strict`. -/
def c6Router (i : Nat) : Router :=
  routerOf (routerAppend (freshRouter .strict) "/foo" (.user i) [] (some .strict))
    (freshRouter .strict)

/-- C6: `strict` registers only the given form: `get("/foo")` hits the
handler, `get("/foo/")` misses — no alias or redirect is created for the
other trailing-slash variant. -/
theorem claim6_strict_registers_only_given_form (i : Nat) :
    routerGet (c6Router i) "/foo" = .ok (some (.user i, [])) ∧
    routerGet (c6Router i) "/foo/" = .ok none :=
  ⟨rfl, rfl⟩

/-- A user-supplied `nope` converter for the C8 scenario. -/
def c8Conv : PyFun := .prim 6 (fun s => .ok (.vStr s)) none

/-- C8 scenario: `/{x:nope}/y` registered with a custom `nope` converter,
leaving the normalized key `{x:nope}` present at the trie root. -/
def c8Router : Router :=
  routerOf
    (routerAppend (freshRouter .strict) "/{x:nope}/y" (.user 0)
      [("nope", c8Conv)] none)
    (freshRouter .strict)

/-- The router after the second C8 append (`/{x:nope}/z`, no custom
converters). -/
def c8Router2 : Router :=
  routerOf (routerAppend c8Router "/{x:nope}/z" (.user 1) [] none)
    (freshRouter .strict)

/-- C8 counterexample: the claim says every `append` whose template names a
converter absent from that call's merged built-in + custom map raises
during `append` — but `_append_dynamic_node` compiles a pattern only when
the normalized key is new, so after `/{x:nope}/y` was registered with a
custom `nope` converter, a second `append("/{x:nope}/z")` with no custom
converters (first conjunct: `nope` is absent from that call's merged map)
reuses the existing `{x:nope}` node and succeeds with no error. -/
theorem claim8_counterexample_existing_key_skips_compile :
    dget (dictMerge builtinConverters []) "nope" = none ∧
    (routerAppend c8Router "/{x:nope}/z" (.user 1) [] none).result =
      .ok (c8Router2, "/{x:nope}/z") :=
  ⟨rfl, rfl⟩

/-- C8 as amended: an unknown converter name is a registration-time
failure exactly when a pattern is actually compiled, i.e. when the
placeholder's normalized key is new at its trie position.  First conjunct
(general): if the key is absent there and compilation of the normalized
head fails, `_Node.append` propagates that error out of the registration —
fail-fast, never deferred to request time.  Second conjunct (general): if
the key already exists, compilation is skipped and the append just recurses
into the existing child, whatever the current converter map.  Third
conjunct: on a fresh router the claimed behaviour therefore does hold —
`append("/{x:nope}/y")` with no custom converters raises the
unknown-converter error during `append`.  Fourth conjunct: the
counterexample's second registration succeeds despite the absent name. -/
theorem claim8_amended_unknown_converter_fails_when_key_new :
    (∀ (st : List (String × Node)) (dy rs : List (String × Parser × Node))
       (hd : Option Handler) (head : String) (rest : List String)
       (h : Handler) (conv : Dict PyFun) (e : PyErr),
       isRestHead head = false →
       isDynHead head = true →
       dget dy (fixTemplate head) = none →
       compile conv (fixTemplate head) = .error e →
       nodeAppend (.mk st dy rs hd) (head :: rest) h conv = .error e) ∧
    (∀ (st : List (String × Node)) (dy rs : List (String × Parser × Node))
       (hd : Option Handler) (head : String) (rest : List String)
       (h : Handler) (conv : Dict PyFun) (pc : Parser × Node),
       isRestHead head = false →
       isDynHead head = true →
       dget dy (fixTemplate head) = some pc →
       nodeAppend (.mk st dy rs hd) (head :: rest) h conv =
         (nodeAppend pc.2 rest h conv).map
           (fun c => .mk st (dset dy (fixTemplate head) (pc.1, c)) rs hd)) ∧
    (routerAppend (freshRouter .strict) "/{x:nope}/y" (.user 0) [] none).result =
      .error (.unknownConverter "nope") ∧
    (routerAppend c8Router "/{x:nope}/z" (.user 1) [] none).result =
      .ok (c8Router2, "/{x:nope}/z") := by
  refine ⟨?_, ?_, rfl, rfl⟩
  · intro st dy rs hd head rest h conv e hrest hdyn hkey hcomp
    simp only [nodeAppend, hrest, hdyn, hkey, hcomp]
    rfl
  · intro st dy rs hd head rest h conv pc hrest hdyn hkey
    simp only [nodeAppend, hrest, hdyn, hkey]
    cases nodeAppend pc.2 rest h conv <;> rfl

/-- A pre-existing dynamic entry for the C8 amended witness. -/
def c8WitnessEntry : Parser × Node :=
  (⟨[.fld "q" (some defaultConverterFun)]⟩, emptyNode)

/-- C8 amended witness: both general conjuncts applied at a concrete
segment `{q:miss}` whose converter name is absent — on an empty node the
append fails with the unknown-converter error; with the key already
present it reduces to the child append, no compilation. -/
theorem claim8_amended_unknown_converter_fails_when_key_new_witness :
    isRestHead "{q:miss}" = false ∧
    isDynHead "{q:miss}" = true ∧
    compile [] (fixTemplate "{q:miss}") = .error (.unknownConverter "miss") ∧
    nodeAppend (.mk [] [] [] none) ["{q:miss}"] (.user 0) [] =
      .error (.unknownConverter "miss") ∧
    nodeAppend (.mk [] [("{q:miss}", c8WitnessEntry)] [] none) ["{q:miss}"]
        (.user 0) [] =
      (nodeAppend c8WitnessEntry.2 [] (.user 0) []).map
        (fun c =>
          .mk [] (dset [("{q:miss}", c8WitnessEntry)] (fixTemplate "{q:miss}")
            (c8WitnessEntry.1, c)) [] none) :=
  ⟨by decide, by decide, rfl,
    claim8_amended_unknown_converter_fails_when_key_new.1
      [] [] [] none "{q:miss}" [] (.user 0) [] (.unknownConverter "miss")
      (by decide) (by decide) rfl rfl,
    claim8_amended_unknown_converter_fails_when_key_new.2.1
      [] [("{q:miss}", c8WitnessEntry)] [] none "{q:miss}" [] (.user 0) []
      c8WitnessEntry (by decide) (by decide) rfl⟩

/-- C9 scenario: `/{a}/{a:int}` (same parameter name at two depths),
strict. -/
def c9Router : Router :=
  routerOf (routerAppend (freshRouter .strict) "/{a}/{a:int}" (.user 0) [] none)
    (freshRouter .strict)

/-- C9: registering a template that reuses one parameter name in two
segments succeeds (first conjunct: `append` returns the canonical path, no
error), and on lookup the deeper segment's capture overwrites the
shallower one: `get("/x/5")` yields `{a: 5}`, not `{a: "x"}`. -/
theorem claim9_duplicate_parameter_deeper_wins :
    (routerAppend (freshRouter .strict) "/{a}/{a:int}" (.user 0) [] none).result =
      .ok (c9Router, "/{a}/{a:int}") ∧
    routerGet c9Router "/x/5" = .ok (some (.user 0, [("a", .vInt 5)])) :=
  ⟨rfl, rfl⟩

/-- C5: for every router produced by any successful sequence of
registrations — custom converters may raise on any input — and every
request path, `Router.get` returns a result and never lets an exception
escape: a converter failure during lookup is handled where it fired and the
search moves on to other alternatives. -/
theorem claim5_lookup_total_under_failing_converters (s : Strategy)
    (regs : List (String × Handler × Dict PyFun × Option Strategy))
    (r : Router) (path : String) (_hb : buildRouter s regs = .ok r) :
    ∃ res, routerGet r path = .ok res :=
  routerGet_ok r path

/-- A user converter whose parse function raises on every input. -/
def badConverter : PyFun := .prim 9 (fun _ => .raise) none

def c5Regs : List (String × Handler × Dict PyFun × Option Strategy) :=
  [("/{z:bad}/w", .user 1, [("bad", badConverter)], some .strict),
   ("/{s:str}/w", .user 2, [], some .strict)]

def c5Router : Router :=
  match buildRouter .strict c5Regs with
  | .ok r => r
  | .error _ => freshRouter .strict

/-- C5 witness: a build whose first route's converter raises on every
segment; lookup is total and, past the raising alternative, still finds the
later sibling. -/
theorem claim5_lookup_total_under_failing_converters_witness :
    buildRouter .strict c5Regs = .ok c5Router ∧
    (∃ res, routerGet c5Router "/q/w" = .ok res) ∧
    routerGet c5Router "/q/w" = .ok (some (.user 2, [("s", .vStr "q")])) :=
  ⟨rfl,
    claim5_lookup_total_under_failing_converters .strict c5Regs c5Router "/q/w" rfl,
    rfl⟩

/-- C7: request-time lookup is read-only and deterministic: the
state-threaded rendering of `Router.get` returns the router unchanged with
the plain lookup's result, and a second call on the state left by the first
returns the same result. -/
theorem claim7_lookup_read_only_and_deterministic (r : Router) (path : String) :
    routerGetS r path = (routerGet r path, r) ∧
    (routerGetS (routerGetS r path).2 path).1 = (routerGetS r path).1 := by
  have h := routerGetS_eq r path
  exact ⟨h, by simp [h]⟩

theorem wrapper_ne (f : PyFun) : PyFun.wrapper f ≠ f := by
  induction f with
  | prim t p pa => exact fun h => PyFun.noConfusion h
  | wrapper g ih => exact fun h => ih (by injection h)

/-- C10: when the template has a placeholder, `Router.append` rewrites the
caller's converters dict in place: afterwards every entry is the `_wrapper`
closure around the caller's function (hence carries a `pattern` attribute),
so a nonempty dict is not left unchanged. -/
theorem claim10_append_mutates_converters (r : Router) (path : String)
    (h : Handler) (c : Dict PyFun) (strat : Option Strategy)
    (hdyn : isDynHead path = true) :
    (routerAppend r path h c strat).convertersAfter =
      c.map (fun kv => (kv.1, PyFun.wrapper kv.2)) ∧
    (∀ kv ∈ (routerAppend r path h c strat).convertersAfter,
      kv.2.patternAttr.isSome) ∧
    (c ≠ [] → (routerAppend r path h c strat).convertersAfter ≠ c) := by
  have hout : (routerAppend r path h c strat).convertersAfter =
      c.map (fun kv => (kv.1, PyFun.wrapper kv.2)) := by
    simp [routerAppend, hdyn]
  refine ⟨hout, ?_, ?_⟩
  · intro kv hkv
    rw [hout] at hkv
    obtain ⟨kv', _, hkv'⟩ := List.mem_map.mp hkv
    rw [← hkv']
    simp [PyFun.patternAttr]
  · intro hne
    rw [hout]
    cases c with
    | nil => exact absurd rfl hne
    | cons kv rest =>
        intro heq
        have h1 : (kv.1, PyFun.wrapper kv.2) = kv := by
          simpa using congrArg (fun l => l.head?) heq
        exact wrapper_ne kv.2 (congrArg Prod.snd h1)

/-- A user-supplied converter for the C10 witness. -/
def c10Conv : PyFun := .prim 5 (fun s => .ok (.vStr s)) none

/-- C10 witness: a concrete dynamic registration whose converters dict
comes back wrapped. -/
theorem claim10_append_mutates_converters_witness :
    isDynHead "/{z:u}" = true ∧
    (routerAppend (freshRouter .strict) "/{z:u}" (.user 0)
        [("u", c10Conv)] none).convertersAfter =
      [("u", .wrapper c10Conv)] ∧
    (routerAppend (freshRouter .strict) "/{z:u}" (.user 0)
        [("u", c10Conv)] none).convertersAfter ≠ [("u", c10Conv)] :=
  ⟨by decide,
    (claim10_append_mutates_converters (freshRouter .strict) "/{z:u}" (.user 0)
      [("u", c10Conv)] none (by decide)).1,
    (claim10_append_mutates_converters (freshRouter .strict) "/{z:u}" (.user 0)
      [("u", c10Conv)] none (by decide)).2.2 (by simp)⟩

/-! ## C4: the built-in `int` converter -/

/-- The pattern the spec claims for the `int` converter, following the
spec's words: full-string match of `-?\d+` (used to compare the claimed
behaviour with the code's). -/
def specIntPattern (s : String) : Bool :=
  match s.data with
  | '-' :: rest => decide (rest ≠ []) && rest.all Char.isDigit
  | cs => decide (cs ≠ []) && cs.all Char.isDigit

/-- C4 scenario: `/{n:int}/foo`, strict, no custom converters. -/
def c4Router : Router :=
  routerOf (routerAppend (freshRouter .strict) "/{n:int}/foo" (.user 0) [] none)
    (freshRouter .strict)

/-- C4 counterexample: the claim says any first segment not matching
`-?\d+` yields `None`, naming a leading `+` explicitly — but `+5` does not
match `-?\d+` (first conjunct) and yet `get("/+5/foo")` succeeds with
`{n: 5}` (second conjunct): the wrapped `int` converter carries the
fallback pattern `[^/]+` and Python's `int()` accepts a leading `+`. -/
theorem claim4_counterexample_plus_sign_accepted :
    specIntPattern "+5" = false ∧
    routerGet c4Router "/+5/foo" = .ok (some (.user 0, [("n", .vInt 5)])) :=
  ⟨rfl, rfl⟩

theorem findSplit_single_aux (n : String) (f : Option PyFun) :
    ∀ (cs pre : List Char),
      (splitsOf cs).findSome? (fun pr =>
        if (effPattern f).matches (String.mk (pre ++ pr.1)) = true then
          (findSplit [] pr.2).map
            (fun caps => (n, f, String.mk (pre ++ pr.1)) :: caps)
        else none) =
      (if (effPattern f).matches (String.mk (pre ++ cs)) = true
       then some [(n, f, String.mk (pre ++ cs))] else none)
  | [], pre => by
      by_cases hp : (effPattern f).matches (String.mk pre) = true <;>
        simp [splitsOf, List.findSome?, findSplit, hp]
  | c :: cs, pre => by
      have hstep : ∀ x : List Char, (pre ++ [c]) ++ x = pre ++ c :: x := by
        intro x
        rw [List.append_assoc]
        rfl
      have ih := findSplit_single_aux n f cs (pre ++ [c])
      simp only [hstep] at ih
      simpa [splitsOf, findSplit, List.findSome?_map, Function.comp]
        using ih

/-- Matching a single whole-string field: the capture is the entire
candidate, accepted exactly when the field's pattern matches it. -/
theorem findSplit_single (n : String) (f : Option PyFun) (cs : List Char) :
    findSplit [PTok.fld n f] cs =
      (if (effPattern f).matches (String.mk cs) = true
       then some [(n, f, String.mk cs)] else none) := by
  simpa [findSplit] using findSplit_single_aux n f cs []

/-- Evaluating the compiled `{n:int}` pattern on one slash-free nonempty
segment: the regex fragment `[^/]+` matches the whole segment, and the
result is decided by Python's `int()` — success captures the integer, a
parse failure raises. -/
theorem c4_parser_eval (seg : String) (h1 : seg ≠ "")
    (h2 : seg.data.all (fun c => c ≠ '/') = true) :
    parserParse ⟨[.fld "n" (some (.wrapper intFun))]⟩ seg =
      (match pyIntParse seg with
        | some k => .ok (some [("n", .vInt k)])
        | none => .error .convRaise) := by
  have hpat : (effPattern (some (.wrapper intFun))).matches
      (String.mk seg.data) = true := by
    have hne : decide (String.mk seg.data ≠ "") = true := by
      simpa using h1
    have h2' : ∀ x ∈ seg.data, ¬ x = '/' := by
      intro x hx
      simpa using List.all_eq_true.mp h2 x hx
    simp [effPattern, PyFun.patternAttr, intFun, PatSpec.matches, hne]
    exact h2'
  unfold parserParse
  rw [show (Parser.mk [.fld "n" (some (.wrapper intFun))]).toks =
        [.fld "n" (some (.wrapper intFun))] from rfl]
  rw [findSplit_single, if_pos hpat]
  show (convertCaps [("n", some (.wrapper intFun), seg)]).map _ = _
  cases hk : pyIntParse seg with
  | none =>
      have hcall : (PyFun.wrapper intFun).call seg = ConvOutcome.raise := by
        simp [PyFun.call, intFun, hk]
      simp only [convertCaps, hcall]
      rfl
  | some k =>
      have hcall : (PyFun.wrapper intFun).call seg = ConvOutcome.ok (.vInt k) := by
        simp [PyFun.call, intFun, hk]
      simp only [convertCaps, hcall]
      rfl

theorem splitSlashAux_append (tail : List Char) :
    ∀ (cs buf : List Char), cs.all (fun c => c ≠ '/') = true →
      splitSlashAux buf (cs ++ '/' :: tail) =
        String.mk (buf.reverse ++ cs) :: splitSlashAux [] tail
  | [], buf, _ => by simp [splitSlashAux]
  | c :: cs, buf, h => by
      simp only [List.all_cons, Bool.and_eq_true] at h
      have hc : ¬ (c = '/') := by simpa using h.1
      simpa [splitSlashAux, hc] using splitSlashAux_append tail cs (c :: buf) h.2

/-- Splitting `"/" ++ seg ++ "/foo"` on slashes when `seg` is slash-free. -/
theorem splitTail_seg_foo (seg : String)
    (h2 : seg.data.all (fun c => c ≠ '/') = true) :
    splitTail ("/" ++ seg ++ "/foo") = [seg, "foo"] := by
  have hdata : ("/" ++ seg ++ "/foo").data =
      '/' :: (seg.data ++ '/' :: ['f', 'o', 'o']) := by
    simp [String.data_append]
  unfold splitTail pySplitSlash
  rw [hdata]
  rw [show splitSlashAux [] ('/' :: (seg.data ++ '/' :: ['f', 'o', 'o'])) =
        "" :: splitSlashAux [] (seg.data ++ '/' :: ['f', 'o', 'o']) from by
      simp [splitSlashAux]]
  rw [splitSlashAux_append ['f', 'o', 'o'] seg.data [] h2]
  rfl

/-- C4 as amended: the `int` converter matches exactly the nonempty
slash-free segments accepted by Python's `int()` parse — the wrapped
converter's regex fragment is the fallback `[^/]+` and the captured text is
then fed to `int()`, whose failure is treated as a non-match.  So
`get("/123/foo")` yields `{n: 123}` and `get("/abc/foo")` yields `None`,
but segments with a leading `+`, surrounding whitespace or underscore
grouping are accepted, since `int()` accepts them. -/
theorem claim4_amended_int_matches_python_int (seg : String) (h1 : seg ≠ "")
    (h2 : seg.data.all (fun c => c ≠ '/') = true) :
    routerGet c4Router ("/" ++ seg ++ "/foo") =
      .ok ((pyIntParse seg).map
        (fun k => ((.user 0 : Handler), [("n", .vInt k)]))) := by
  have hc4 : c4Router =
      ⟨.strict, ⟨[]⟩,
        Node.mk []
          [("{n:int}", ⟨[.fld "n" (some (.wrapper intFun))]⟩,
            Node.mk [("foo", Node.mk [] [] [] (some (.user 0)))] [] [] none)]
          [] none⟩ := rfl
  rw [hc4]
  show dynGet _ ("/" ++ seg ++ "/foo") = _
  unfold dynGet
  rw [splitTail_seg_foo seg h2]
  cases hk : pyIntParse seg with
  | none =>
      simp [nodeGet, dget, firstHitE, exceptOrElse,
        c4_parser_eval seg h1 h2, hk]
  | some k =>
      simp [nodeGet, dget, firstHitE, exceptOrElse,
        c4_parser_eval seg h1 h2, hk, dictMerge, dset, nodeGetNil,
        Node.handler, joinPath]

/-- C4 amended witness: concrete segments — a plain number and a non-number
behave as the original claim says, while `+5`, ` 5 ` and `1_0` show the
Python-`int()` acceptances the claim missed. -/
theorem claim4_amended_int_matches_python_int_witness :
    routerGet c4Router "/123/foo" = .ok (some (.user 0, [("n", .vInt 123)])) ∧
    routerGet c4Router "/abc/foo" = .ok none ∧
    routerGet c4Router "/+5/foo" = .ok (some (.user 0, [("n", .vInt 5)])) ∧
    routerGet c4Router "/ 5 /foo" = .ok (some (.user 0, [("n", .vInt 5)])) ∧
    routerGet c4Router "/1_0/foo" = .ok (some (.user 0, [("n", .vInt 10)])) := by
  refine ⟨?_, ?_, ?_, ?_, ?_⟩
  · exact claim4_amended_int_matches_python_int "123" (by decide) (by decide)
  · exact claim4_amended_int_matches_python_int "abc" (by decide) (by decide)
  · exact claim4_amended_int_matches_python_int "+5" (by decide) (by decide)
  · exact claim4_amended_int_matches_python_int " 5 " (by decide) (by decide)
  · exact claim4_amended_int_matches_python_int "1_0" (by decide) (by decide)

end Spangle
